import Mathlib

/-!
Verification of the request-lifecycle engine of the IBM Aspera Connect SDK
(`packages/browser/src/request/request.ts`, with constants from
`packages/browser/src/shared/constants.ts`).

The `RequestHandler` class is embedded shallowly: its mutable fields become a
`RequestHandler` structure, and each method becomes a function
`RequestHandler → ... → RequestHandler × List Effect` where the `Effect` list
records, in program order, the externally visible actions the method performs
(adapter `httpRequest` calls, success and error callback invocations, status
listener notifications, the adapter `stop` call).  A ghost `Effect.alloc`
event is additionally emitted at every `this.nextId++` site so that id
allocation over an instance lifetime can be reasoned about.

Parts of the repository that `request.ts` imports but that are not present
under `src/` (the `utils` module and `shared/sharedInternals`) are modelled
from the spec where needed; each such definition carries a doc comment
starting with `Modelled from the spec:`.
-/

namespace AsperaConnect

/-- Modelled from the spec: the engine status enum (spec section 3).  The
source imports `STATUS` from `shared/sharedInternals`, which is not under
`src/`; the spec lists the values INITIALIZING, RETRYING/DEGRADED, RUNNING,
OUTDATED, FAILED, EXTENSION_INSTALL, WAITING, STOPPED, with RETRYING and
DEGRADED naming the same state. -/
inductive Status where
  | INITIALIZING
  | DEGRADED
  | RUNNING
  | OUTDATED
  | FAILED
  | EXTENSION_INSTALL
  | WAITING
  | STOPPED
  deriving DecidableEq, Repr

/-- From `shared/constants.ts`: `export const MIN_SECURE_VERSION = '3.8.0';` -/
def MIN_SECURE_VERSION : String := "3.8.0"

/-- From `shared/constants.ts`: `export const MAX_POLLING_ERRORS = 3;` -/
def MAX_POLLING_ERRORS : Nat := 3

/-- Modelled from the spec: segment-list comparison underlying
`Utils.versionLessThan` (the `utils` module is not under `src/`).  Spec
section 4.3: each dot-separated segment is compared as an integer, missing
trailing segments are treated as 0, ties are not-less-than.  When the left
list is exhausted its missing segments count as 0, so the left is smaller
exactly when some remaining right segment is positive; when the right list
is exhausted the remaining right segments count as 0 and the left is never
smaller. -/
def vltAux : List Nat → List Nat → Bool
  | [], ys => ys.any (fun y => decide (0 < y))
  | _ :: _, [] => false
  | x :: xs, y :: ys => if x < y then true else if y < x then false else vltAux xs ys

/-- Splits a character list at every dot. -/
def splitDotAux : List Char → List Char → List (List Char)
  | [], acc => [acc.reverse]
  | c :: rest, acc => if c = '.' then acc.reverse :: splitDotAux rest [] else splitDotAux rest (c :: acc)

/-- Numeric value of one version segment; a segment that is not a plain
decimal numeral counts as 0. -/
def segValue (cs : List Char) : Nat :=
  if cs.isEmpty || !(cs.all Char.isDigit) then 0
  else cs.foldl (fun acc c => acc * 10 + (c.toNat - 48)) 0

/-- Dot-separated numeric segments of a version string. -/
def versionSegments (v : String) : List Nat :=
  (splitDotAux v.data []).map segValue

/-- Modelled from the spec: `Utils.versionLessThan` (spec section 4.3),
a dotted-numeric compare. -/
def versionLessThan (a b : String) : Bool :=
  vltAux (versionSegments a) (versionSegments b)

/-- JavaScript `String.prototype.indexOf` helper: first index at which
`needle` occurs in the remaining character list, counting from `i`. -/
def indexOfFrom (needle : List Char) : List Char → Nat → Int
  | [], i => if needle.isEmpty then (i : Int) else -1
  | c :: rest, i => if needle.isPrefixOf (c :: rest) then (i : Int) else indexOfFrom needle rest (i + 1)

/-- JavaScript `s.indexOf(sub)`: index of the first occurrence of `sub` in
`s`, or -1. -/
def jsIndexOf (s sub : String) : Int :=
  indexOfFrom sub.data s.data 0

/-- The source `IRequest` record: `{ id, method, path, data, callbacks }`.
The callbacks pair is not carried here; callback invocations are recorded as
effects keyed by the request id (requests created by `checkVersion` and the
update-required request carry `callbacks: null` in the source and never have
callback effects). -/
structure IRequest where
  id : Nat
  method : String
  path : String
  data : Option String
  deriving DecidableEq, Repr

/-- A response body after `Utils.parseJson`: whether it has an `error` field,
and its `version` field (meaningful for version-endpoint responses). -/
structure ParsedResponse where
  hasError : Bool
  version : String
  deriving DecidableEq, Repr

/-- Body of an adapter `httpRequest` call: null, a caller-supplied string, or
the `JSON.stringify({min_version, sdk_location})` update-required body. -/
inductive ReqBody where
  | noData
  | str (s : String)
  | updateRequire (min_version sdk_location : String)
  deriving DecidableEq, Repr

/-- Which callback the source hands to the adapter for a request. -/
inductive CallbackKind where
  | handleResponse
  | checkVersionCallback
  | noCallback
  deriving DecidableEq, Repr

/-- Externally visible actions of the request handler, in program order.
The `sessionId` argument of adapter calls is not claim-relevant and is
omitted.  `alloc` is a ghost event marking each `this.nextId++`. -/
inductive Effect where
  | httpRequest (method path : String) (data : ReqBody) (cb : CallbackKind) (id : Nat)
  | successCb (id : Nat)
  | errorCb (id : Nat)
  | listener (s : Status)
  | adapterStop
  | alloc (id : Nat)
  deriving DecidableEq, Repr

/-- The mutable fields of the `RequestHandler` class.  `statusListener` is
true when `addStatusListener` has registered a listener (the class holds at
most one).  `connectVersion` models the `sharedInternals.connectVersion`
store, `checkVersionException` the `Utils.checkVersionException()` override
flag, and `sdkLocation` the configured `Utils.SDK_LOCATION`; those three live
in modules not under `src/` and are modelled from the spec. -/
structure RequestHandler where
  connectStatus : Status
  nextId : Nat
  idCallbackHash : List (Nat × IRequest)
  requestQueue : List IRequest
  statusListener : Bool
  minVersion : String
  pollingRequestErrors : Nat
  connectVersion : String
  checkVersionException : Bool
  sdkLocation : String
  deriving DecidableEq, Repr

/-- Lookup in the `idCallbackHash` JavaScript object. -/
def hashLookup (h : List (Nat × IRequest)) (k : Nat) : Option IRequest :=
  (h.find? (fun p => p.1 == k)).map (fun p => p.2)

/-- Assignment `this.idCallbackHash[k] = v`. -/
def hashInsert (h : List (Nat × IRequest)) (k : Nat) (v : IRequest) : List (Nat × IRequest) :=
  if (h.find? (fun p => p.1 == k)).isSome then
    h.map (fun p => if p.1 == k then (k, v) else p)
  else
    h ++ [(k, v)]

/-- Statement `delete this.idCallbackHash[k]`. -/
def hashDelete (h : List (Nat × IRequest)) (k : Nat) : List (Nat × IRequest) :=
  h.filter (fun p => !(p.1 == k))

/-- Conversion of a stored request body to the adapter-call body. -/
def dataToBody : Option String → ReqBody
  | none => ReqBody.noData
  | some s => ReqBody.str s

/-- The adapter call `httpRequest(method, path, data, handleResponse, id,
sessionId)` made for a stored request. -/
def sendEff (r : IRequest) : Effect :=
  Effect.httpRequest r.method r.path (dataToBody r.data) CallbackKind.handleResponse r.id

/-- One send per element, front to back. -/
def drainEffects : List IRequest → List Effect
  | [] => []
  | r :: rest => sendEff r :: drainEffects rest

/-- Effects of the `processQueue` while-loop: `this.requestQueue.pop()`
removes and sends the last element each iteration, so the queue is emitted
back to front. -/
def processQueueEffects (q : List IRequest) : List Effect :=
  drainEffects q.reverse

/-- Method `processQueue` (request.ts lines 62-71): drains the whole queue,
sending each popped request to the adapter. -/
def processQueue (rh : RequestHandler) : RequestHandler × List Effect :=
  ({ rh with requestQueue := [] }, processQueueEffects rh.requestQueue)

/-- Method `checkVersion` (request.ts lines 127-135): allocates an id, records a
callback-less pending request, and GETs the version endpoint with
`checkVersionCallback` as the response callback. -/
def checkVersion (rh : RequestHandler) : RequestHandler × List Effect :=
  let requestId := rh.nextId
  let requestInfo : IRequest := { id := requestId, method := "GET", path := "/connect/info/version", data := none }
  ({ rh with
      nextId := requestId + 1,
      idCallbackHash := hashInsert rh.idCallbackHash requestId requestInfo },
   [Effect.alloc requestId,
    Effect.httpRequest "GET" "/connect/info/version" ReqBody.noData CallbackKind.checkVersionCallback requestId])

/-- Method `changeConnectStatus` (request.ts lines 73-87): stores the new status;
if RUNNING, drains the queue; if DEGRADED, triggers `checkVersion` and
returns without notifying; otherwise notifies the registered listener. -/
def changeConnectStatus (rh : RequestHandler) (newConnectStatus : Status) : RequestHandler × List Effect :=
  let rh1 : RequestHandler := { rh with connectStatus := newConnectStatus }
  let drained := if newConnectStatus = Status.RUNNING then processQueue rh1 else (rh1, [])
  if newConnectStatus = Status.DEGRADED then
    let probe := checkVersion drained.1
    (probe.1, drained.2 ++ probe.2)
  else
    (drained.1, drained.2 ++ (if drained.1.statusListener then [Effect.listener newConnectStatus] else []))

/-- The effective minimum version computed by `checkVersionCallback`
(request.ts lines 107-109): the caller minimum is raised to
`MIN_SECURE_VERSION` when empty or lower. -/
def effectiveMin (minVersion : String) : String :=
  if minVersion = "" ∨ versionLessThan minVersion MIN_SECURE_VERSION then MIN_SECURE_VERSION else minVersion

/-- Method `checkVersionCallback` (request.ts lines 89-125): deletes the pending
entry; on a parseable 200 records the reported version; refuses to leave
OUTDATED without an override; otherwise enforces the effective minimum,
transitioning to OUTDATED and POSTing the update-required notification when
the recorded version is too low, else transitioning to RUNNING. -/
def checkVersionCallback (rh : RequestHandler) (httpCode : Nat) (response : ParsedResponse) (requestId : Nat) : RequestHandler × List Effect :=
  let rh0 : RequestHandler := { rh with idCallbackHash := hashDelete rh.idCallbackHash requestId }
  if httpCode = 200 ∧ response.hasError then (rh0, [])
  else
    let rh1 : RequestHandler := if httpCode = 200 then { rh0 with connectVersion := response.version } else rh0
    if rh1.connectStatus = Status.OUTDATED ∧ ¬ rh1.checkVersionException then (rh1, [])
    else if ¬ rh1.checkVersionException then
      let rh2 : RequestHandler := { rh1 with minVersion := effectiveMin rh1.minVersion }
      if versionLessThan rh2.connectVersion rh2.minVersion then
        let changed := changeConnectStatus rh2 Status.OUTDATED
        let rh3 := changed.1
        let newRequestId := rh3.nextId
        let requestInfo : IRequest := { id := newRequestId, method := "POST", path := "/connect/update/require", data := none }
        ({ rh3 with
            nextId := newRequestId + 1,
            idCallbackHash := hashInsert rh3.idCallbackHash newRequestId requestInfo },
         changed.2 ++
           [Effect.alloc newRequestId,
            Effect.httpRequest "POST" "/connect/update/require"
              (ReqBody.updateRequire rh3.minVersion rh3.sdkLocation) CallbackKind.noCallback newRequestId])
      else changeConnectStatus rh2 Status.RUNNING
    else changeConnectStatus rh1 Status.RUNNING

/-- Method `handleResponse` (request.ts lines 137-179): drops everything while
STOPPED; ignores unknown ids; on httpCode 0 either debounces the
high-frequency polling path with an immediate error callback or re-queues
the request; on any other code first promotes a non-RUNNING status to
RUNNING, then classifies the response, invokes the matching callback and
deletes the pending entry. -/
def handleResponse (rh : RequestHandler) (httpCode : Nat) (response : ParsedResponse) (requestId : Nat) : RequestHandler × List Effect :=
  if rh.connectStatus = Status.STOPPED then (rh, [])
  else
    match hashLookup rh.idCallbackHash requestId with
    | none => (rh, [])
    | some requestInfo =>
      if httpCode = 0 then
        if rh.pollingRequestErrors < MAX_POLLING_ERRORS ∧ 0 < jsIndexOf requestInfo.path "/connect/transfers/activity" then
          ({ rh with pollingRequestErrors := rh.pollingRequestErrors + 1 }, [Effect.errorCb requestId])
        else
          ({ rh with requestQueue := rh.requestQueue ++ [requestInfo] }, [])
      else
        let promoted := if rh.connectStatus ≠ Status.RUNNING then changeConnectStatus rh Status.RUNNING else (rh, [])
        let rh1 := promoted.1
        if httpCode = 200 ∧ response.hasError = false then
          ({ rh1 with
              pollingRequestErrors := 0,
              idCallbackHash := hashDelete rh1.idCallbackHash requestId },
           promoted.2 ++ [Effect.successCb requestId])
        else
          ({ rh1 with idCallbackHash := hashDelete rh1.idCallbackHash requestId },
           promoted.2 ++ [Effect.errorCb requestId])

/-- Method `start` (request.ts lines 185-216): a no-op while STOPPED (the source
returns null on every path; the return value is not modelled); otherwise
allocates an id, records the pending request, probes the version when
DEGRADED, and either queues the request (status not RUNNING) or sends it. -/
def start (rh : RequestHandler) (method path : String) (data : Option String) : RequestHandler × List Effect :=
  if rh.connectStatus = Status.STOPPED then (rh, [])
  else
    let requestId := rh.nextId
    let requestInfo : IRequest := { id := requestId, method := method, path := path, data := data }
    let rh1 : RequestHandler := { rh with
      nextId := requestId + 1,
      idCallbackHash := hashInsert rh.idCallbackHash requestId requestInfo }
    let probed := if rh1.connectStatus = Status.DEGRADED then checkVersion rh1 else (rh1, [])
    let rh2 := probed.1
    if rh2.connectStatus ≠ Status.RUNNING then
      ({ rh2 with requestQueue := rh2.requestQueue ++ [requestInfo] },
       Effect.alloc requestId :: probed.2)
    else
      (rh2, Effect.alloc requestId :: (probed.2 ++ [sendEff requestInfo]))

/-- Method `stopRequests` (request.ts lines 296-301): assigns STOPPED directly,
calls the adapter `stop()` when that method exists (the Boolean argument),
and returns true. -/
def stopRequests (rh : RequestHandler) (adapterHasStop : Bool) : (RequestHandler × List Effect) × Bool :=
  (({ rh with connectStatus := Status.STOPPED },
    if adapterHasStop then [Effect.adapterStop] else []), true)

/-- Externally triggerable operations on one handler instance: API calls
(`start`, `stopRequests`), adapter response callbacks (`handleResponse` for
ordinary requests, `checkVersionCallback` for version requests), the adapter
status callback (`changeStatus`, the `requestStatusCallback` handed to the
transport), and `checkVersion`. -/
inductive Op where
  | start (method path : String) (data : Option String)
  | handleResponse (httpCode : Nat) (response : ParsedResponse) (requestId : Nat)
  | checkVersionCb (httpCode : Nat) (response : ParsedResponse) (requestId : Nat)
  | changeStatus (s : Status)
  | checkVersion
  | stopRequests (adapterHasStop : Bool)
  deriving DecidableEq, Repr

/-- One operation applied to a handler state. -/
def runOp (rh : RequestHandler) : Op → RequestHandler × List Effect
  | Op.start m p d => start rh m p d
  | Op.handleResponse c resp i => handleResponse rh c resp i
  | Op.checkVersionCb c resp i => checkVersionCallback rh c resp i
  | Op.changeStatus s => changeConnectStatus rh s
  | Op.checkVersion => checkVersion rh
  | Op.stopRequests b => (stopRequests rh b).1

/-- A whole sequence of operations, with the concatenated effect trace. -/
def runTrace (rh : RequestHandler) : List Op → RequestHandler × List Effect
  | [] => (rh, [])
  | op :: ops =>
    let stepped := runOp rh op
    let rest := runTrace stepped.1 ops
    (rest.1, stepped.2 ++ rest.2)

/-- The ids allocated (ghost `alloc` events) in an effect trace. -/
def allocIds (effs : List Effect) : List Nat :=
  effs.filterMap (fun e => match e with | Effect.alloc i => some i | _ => none)

/-- The ids of adapter `httpRequest` calls in an effect trace. -/
def httpIds (effs : List Effect) : List Nat :=
  effs.filterMap (fun e => match e with | Effect.httpRequest _ _ _ _ i => some i | _ => none)

/-- An adapter call for request id `i` occurs in the trace. -/
def sendsId (effs : List Effect) (i : Nat) : Prop :=
  i ∈ httpIds effs

/-- Number of success or error callback invocations for id `i`. -/
def cbCount (effs : List Effect) (i : Nat) : Nat :=
  effs.countP (fun e => match e with
    | Effect.successCb j => j == i
    | Effect.errorCb j => j == i
    | _ => false)

/-- The keys of the pending-request table. -/
def hashKeys (h : List (Nat × IRequest)) : List Nat :=
  h.map (fun p => p.1)

/-- Data invariant of a handler: pending-table keys are distinct, every
stored request carries its own key as id, and all recorded ids (pending or
queued) are below the allocation counter. -/
def invP (h : List (Nat × IRequest)) (q : List IRequest) (n : Nat) : Prop :=
  (hashKeys h).Nodup ∧ (∀ p ∈ h, p.2.id = p.1 ∧ p.1 < n) ∧ (∀ r ∈ q, r.id < n)

/-- The invariant, read off a handler state. -/
def Inv (rh : RequestHandler) : Prop :=
  invP rh.idCallbackHash rh.requestQueue rh.nextId

/-- A fresh handler: the field initializers of the class (request.ts lines
44-58), with the initial INITIALIZING transition performed by `init`, a
caller-configured minimum version and SDK location, and the override flag
and listener registration as parameters. -/
def initHandler (minV sdkLoc : String) (exc listenerRegistered : Bool) : RequestHandler :=
  { connectStatus := Status.INITIALIZING,
    nextId := 0,
    idCallbackHash := [],
    requestQueue := [],
    statusListener := listenerRegistered,
    minVersion := minV,
    pollingRequestErrors := 0,
    connectVersion := "",
    checkVersionException := exc,
    sdkLocation := sdkLoc }

/-- The classification of a non-zero-code response by `handleResponse`:
200 with no embedded error invokes the success callback, anything else the
error callback. -/
def classifyEff (httpCode : Nat) (response : ParsedResponse) (i : Nat) : Effect :=
  if httpCode = 200 ∧ response.hasError = false then Effect.successCb i else Effect.errorCb i

/-! Basic lemmas about the version comparison. -/

theorem vltAux_nil_right : ∀ xs : List Nat, vltAux xs [] = false
  | [] => rfl
  | _ :: _ => rfl

theorem vltAux_self (l : List Nat) : vltAux l l = false := by
  induction l with
  | nil => rfl
  | cons x xs ih => simp [vltAux, ih]

theorem vltAux_asymm : ∀ a b : List Nat, vltAux a b = true → vltAux b a = false := by
  intro a
  induction a with
  | nil =>
    intro b hb
    cases b with
    | nil => simp [vltAux] at hb
    | cons y ys => rfl
  | cons x xs ih =>
    intro b hb
    cases b with
    | nil => simp [vltAux] at hb
    | cons y ys =>
      simp only [vltAux] at hb ⊢
      by_cases h1 : x < y
      · have h2 : ¬ y < x := by omega
        simp [h1, h2]
      · by_cases h2 : y < x
        · simp [h1, h2] at hb
        · simp [h1, h2] at hb ⊢
          exact ih ys hb

theorem vltAux_concat_zero_left : ∀ xs ys : List Nat, vltAux (xs ++ [0]) ys = vltAux xs ys := by
  intro xs
  induction xs with
  | nil =>
    intro ys
    cases ys with
    | nil => rfl
    | cons y ys =>
      simp only [List.nil_append, vltAux]
      by_cases hy : 0 < y
      · simp [hy]
      · simp [hy]
  | cons x xs ih =>
    intro ys
    cases ys with
    | nil => rfl
    | cons y ys => simp [vltAux, ih]

theorem vltAux_concat_zero_right : ∀ xs ys : List Nat, vltAux xs (ys ++ [0]) = vltAux xs ys := by
  intro xs
  induction xs with
  | nil =>
    intro ys
    simp [vltAux]
  | cons x xs ih =>
    intro ys
    cases ys with
    | nil => simp [vltAux, vltAux_nil_right]
    | cons y ys => simp [vltAux, ih]

theorem versionLessThan_self (a : String) : versionLessThan a a = false :=
  vltAux_self (versionSegments a)

theorem versionLessThan_asymm (a b : String) (h : versionLessThan a b = true) :
    versionLessThan b a = false :=
  vltAux_asymm (versionSegments a) (versionSegments b) h

/-! Normal forms of `changeConnectStatus` and the queue drain. -/

theorem drainEffects_eq_map (l : List IRequest) : drainEffects l = l.map sendEff := by
  induction l with
  | nil => rfl
  | cons r rest ih => simp [drainEffects, ih]

theorem processQueueEffects_eq (q : List IRequest) :
    processQueueEffects q = q.reverse.map sendEff := by
  simp [processQueueEffects, drainEffects_eq_map]

theorem ccs_other (rh : RequestHandler) (s : Status)
    (h1 : s ≠ Status.RUNNING) (h2 : s ≠ Status.DEGRADED) :
    changeConnectStatus rh s =
      ({ rh with connectStatus := s },
       if rh.statusListener then [Effect.listener s] else []) := by
  simp [changeConnectStatus, h1, h2]

theorem ccs_running (rh : RequestHandler) :
    changeConnectStatus rh Status.RUNNING =
      ({ rh with connectStatus := Status.RUNNING, requestQueue := [] },
       processQueueEffects rh.requestQueue ++
         if rh.statusListener then [Effect.listener Status.RUNNING] else []) := by
  simp [changeConnectStatus, processQueue]

theorem ccs_degraded (rh : RequestHandler) :
    changeConnectStatus rh Status.DEGRADED =
      ({ rh with
          connectStatus := Status.DEGRADED,
          nextId := rh.nextId + 1,
          idCallbackHash := hashInsert rh.idCallbackHash rh.nextId
            ⟨rh.nextId, "GET", "/connect/info/version", none⟩ },
       [Effect.alloc rh.nextId,
        Effect.httpRequest "GET" "/connect/info/version" ReqBody.noData
          CallbackKind.checkVersionCallback rh.nextId]) := by
  simp [changeConnectStatus, checkVersion]

/-! Lemmas about the pending-request table and callback counting. -/

theorem hashLookup_delete (h : List (Nat × IRequest)) (k : Nat) :
    hashLookup (hashDelete h k) k = none := by
  unfold hashLookup hashDelete
  rw [Option.map_eq_none', List.find?_eq_none]
  intro p hp
  have := List.of_mem_filter hp
  simpa using this

theorem cbCount_append (l1 l2 : List Effect) (i : Nat) :
    cbCount (l1 ++ l2) i = cbCount l1 i + cbCount l2 i := by
  simp [cbCount, List.countP_append]

theorem cbCount_processQueue (q : List IRequest) (i : Nat) :
    cbCount (processQueueEffects q) i = 0 := by
  rw [processQueueEffects_eq]
  rw [cbCount, List.countP_eq_zero]
  intro e he
  rcases List.mem_map.mp he with ⟨r, _, rfl⟩
  simp [sendEff]

theorem cbCount_listener_ite (b : Bool) (s : Status) (i : Nat) :
    cbCount (if b then [Effect.listener s] else []) i = 0 := by
  cases b <;> simp [cbCount]

theorem cbCount_single_success (i : Nat) : cbCount [Effect.successCb i] i = 1 := by
  simp [cbCount]

theorem cbCount_single_error (i : Nat) : cbCount [Effect.errorCb i] i = 1 := by
  simp [cbCount]

theorem ccs_outdated (rh : RequestHandler) :
    changeConnectStatus rh Status.OUTDATED =
      ({ rh with connectStatus := Status.OUTDATED },
       if rh.statusListener then [Effect.listener Status.OUTDATED] else []) :=
  ccs_other rh Status.OUTDATED (by decide) (by decide)

/-! ## Claim C7: the version comparison -/

/-- C7: the version comparison used by the gate is a dotted-numeric compare:
each dot-separated segment is compared as an integer, missing trailing
segments are treated as 0 (appending a 0 segment on either side changes
nothing), and equal versions are not-less-than; concretely
cmp("3.8.0","3.8") is not-less-than and cmp("3.7.9","3.8.0") is
less-than. -/
theorem C7_version_compare :
    versionLessThan "3.8.0" "3.8" = false ∧
    versionLessThan "3.7.9" "3.8.0" = true ∧
    (∀ a : String, versionLessThan a a = false) ∧
    (∀ xs ys : List Nat,
      vltAux (xs ++ [0]) ys = vltAux xs ys ∧ vltAux xs (ys ++ [0]) = vltAux xs ys) :=
  ⟨by decide, by decide, versionLessThan_self,
   fun xs ys => ⟨vltAux_concat_zero_left xs ys, vltAux_concat_zero_right xs ys⟩⟩

/-! ## Claim C2: the polling-path debounce -/

/-- The transfer-activity polling request exactly as the repository itself
submits it (`connect.ts` line 252 passes the path
`/connect/transfers/activity` to `requestHandler.start`). -/
def activityReq : IRequest :=
  { id := 0, method := "POST", path := "/connect/transfers/activity", data := none }

/-- A handler with the polling request pending and no polling errors yet. -/
def rhC2 : RequestHandler :=
  { initHandler "" "sdk" false false with idCallbackHash := [(0, activityReq)], nextId := 1 }

/-- C2, evaluated at the failing input: the debounce condition in
`handleResponse` is `path.indexOf('/connect/transfers/activity') > 0`, but
the polling path as submitted by the repository contains that substring at
index 0, so the very first httpCode-0 response pushes the request onto the
RequestQueue and the error callback is never invoked — contrary to the
claimed first-3-errors-then-queue behaviour (the spec scenario in section 8
and the otherwise-dead `MAX_POLLING_ERRORS` counter logic indicate the
strict `> 0` is a slip for a not-found test). -/
theorem C2_polling_debounce_dead :
    jsIndexOf activityReq.path "/connect/transfers/activity" = 0 ∧
    rhC2.pollingRequestErrors = 0 ∧
    handleResponse rhC2 0 ⟨false, ""⟩ 0 = ({ rhC2 with requestQueue := [activityReq] }, []) := by
  decide

/-! ## Claim C5: behaviour while STOPPED -/

/-- C5 (amended): while connectStatus is STOPPED, `start` returns without
creating a PendingRequest, modifying the RequestQueue or calling the adapter
(the source returns null), `handleResponse` returns without invoking any
callback (it is a total function, so no exception), and `stopRequests`
keeps the status STOPPED; STOPPED is however not absorbing for every
operation (see the counterexample: a late `checkVersionCallback` response
bypasses the STOPPED guard). -/
theorem C5_stopped_noop (rh : RequestHandler) (m p : String) (d : Option String)
    (c : Nat) (resp : ParsedResponse) (i : Nat) (b : Bool)
    (h : rh.connectStatus = Status.STOPPED) :
    start rh m p d = (rh, []) ∧
    handleResponse rh c resp i = (rh, []) ∧
    (stopRequests rh b).1.1.connectStatus = Status.STOPPED ∧
    (stopRequests rh b).2 = true := by
  refine ⟨?_, ?_, ?_, rfl⟩
  · simp [start, h]
  · simp [handleResponse, h]
  · simp [stopRequests]

/-- Witness for C5_stopped_noop at a concrete stopped handler. -/
def rhC5w : RequestHandler :=
  { initHandler "" "sdk" false false with connectStatus := Status.STOPPED }

theorem C5_stopped_noop_witness :
    start rhC5w "GET" "/connect/info/ping" none = (rhC5w, []) ∧
    handleResponse rhC5w 404 ⟨true, ""⟩ 7 = (rhC5w, []) ∧
    (stopRequests rhC5w true).1.1.connectStatus = Status.STOPPED ∧
    (stopRequests rhC5w true).2 = true :=
  C5_stopped_noop rhC5w "GET" "/connect/info/ping" none 404 ⟨true, ""⟩ 7 true (by decide)

/-- A stopped handler with the version-check request still pending. -/
def rhC5x : RequestHandler :=
  { initHandler "" "sdk" false false with
      connectStatus := Status.STOPPED,
      idCallbackHash := [(0, ⟨0, "GET", "/connect/info/version", none⟩)],
      nextId := 1 }

/-- Counterexample to C5 as stated: STOPPED does not always stay STOPPED.
`checkVersionCallback` carries no STOPPED guard, so a version response that
arrives after `stopRequests` moves the handler from STOPPED to RUNNING. -/
theorem C5_stopped_escape :
    rhC5x.connectStatus = Status.STOPPED ∧
    (runOp rhC5x (Op.checkVersionCb 200 ⟨false, "3.9.0"⟩ 0)).1.connectStatus = Status.RUNNING ∧
    Status.RUNNING ≠ Status.STOPPED := by
  decide

/-! ## Claim C6: listener notification on status transitions -/

/-- C6 (amended): for every status transition performed by
`changeConnectStatus` except DEGRADED, the registered status listener is
invoked synchronously with the new status value before the call returns
(after the queue drain when the new status is RUNNING; this includes the
WAITING value, which is not special-cased at this layer); a transition to
DEGRADED instead triggers an immediate `checkVersion` reconnection probe
and returns without notifying the listener. -/
theorem C6_listener_notify (rh : RequestHandler) (s : Status)
    (hl : rh.statusListener = true) :
    (s ≠ Status.DEGRADED →
      (changeConnectStatus rh s).2 =
        (if s = Status.RUNNING then processQueueEffects rh.requestQueue else []) ++
          [Effect.listener s]) ∧
    (changeConnectStatus rh Status.DEGRADED).2 =
      [Effect.alloc rh.nextId,
       Effect.httpRequest "GET" "/connect/info/version" ReqBody.noData
         CallbackKind.checkVersionCallback rh.nextId] := by
  constructor
  · intro hdeg
    by_cases hrun : s = Status.RUNNING
    · subst hrun
      rw [ccs_running]
      simp [hl]
    · rw [ccs_other rh s hrun hdeg]
      simp [hl, hrun]
  · rw [ccs_degraded]

/-- Witness for C6_listener_notify: a WAITING transition notifies the
listener with WAITING, and a DEGRADED transition emits only the version
probe. -/
theorem C6_listener_notify_witness :
    (changeConnectStatus (initHandler "" "sdk" false true) Status.WAITING).2 =
      [Effect.listener Status.WAITING] ∧
    (changeConnectStatus (initHandler "" "sdk" false true) Status.DEGRADED).2 =
      [Effect.alloc 0,
       Effect.httpRequest "GET" "/connect/info/version" ReqBody.noData
         CallbackKind.checkVersionCallback 0] := by
  have h := C6_listener_notify (initHandler "" "sdk" false true) Status.WAITING rfl
  exact ⟨by simpa using h.1 (by decide), by simpa using h.2⟩

/-- Counterexample to C6 as stated: with a listener registered, a DEGRADED
transition does not notify it — `changeConnectStatus` returns right after
the `checkVersion` probe, so the effect trace holds no listener event. -/
theorem C6_degraded_no_notify :
    (initHandler "" "sdk" false true).statusListener = true ∧
    (changeConnectStatus (initHandler "" "sdk" false true) Status.DEGRADED).2 =
      [Effect.alloc 0,
       Effect.httpRequest "GET" "/connect/info/version" ReqBody.noData
         CallbackKind.checkVersionCallback 0] ∧
    Effect.listener Status.DEGRADED ∉
      (changeConnectStatus (initHandler "" "sdk" false true) Status.DEGRADED).2 := by
  decide

/-! ## Claim C10: stopRequests frame -/

/-- C10: `stopRequests` always returns true, sets connectStatus to STOPPED
by direct assignment — bypassing `changeConnectStatus`, so the status
listener is never invoked — leaves the RequestQueue, the pending-request
table, the id counter and the polling-error counter unchanged, and its only
other effect is the adapter `stop()` call when that method exists. -/
theorem C10_stop_frame (rh : RequestHandler) (b : Bool) :
    (stopRequests rh b).2 = true ∧
    (stopRequests rh b).1.1.connectStatus = Status.STOPPED ∧
    (stopRequests rh b).1.1.requestQueue = rh.requestQueue ∧
    (stopRequests rh b).1.1.idCallbackHash = rh.idCallbackHash ∧
    (stopRequests rh b).1.1.nextId = rh.nextId ∧
    (stopRequests rh b).1.1.pollingRequestErrors = rh.pollingRequestErrors ∧
    (∀ s : Status, Effect.listener s ∉ (stopRequests rh b).1.2) ∧
    (stopRequests rh b).1.2 = (if b then [Effect.adapterStop] else []) := by
  refine ⟨rfl, rfl, rfl, rfl, rfl, rfl, ?_, rfl⟩
  intro s
  cases b <;> simp [stopRequests]

/-! ## Claim C9: non-zero responses promote to RUNNING before classification -/

/-- C9: when `handleResponse` receives any non-zero httpCode for a known
request id and connectStatus is not STOPPED, any non-RUNNING status
(including OUTDATED) is promoted to RUNNING before the response is
classified: the resulting status is RUNNING, the final effect is the
success/error classification of the response, and the listener notification
for the RUNNING promotion (when a listener is registered and the status was
not already RUNNING) precedes it in the trace. -/
theorem C9_promote_on_response (rh : RequestHandler) (c : Nat) (resp : ParsedResponse)
    (i : Nat) (req : IRequest)
    (hns : rh.connectStatus ≠ Status.STOPPED)
    (hreq : hashLookup rh.idCallbackHash i = some req)
    (hc : c ≠ 0) :
    (handleResponse rh c resp i).1.connectStatus = Status.RUNNING ∧
    (handleResponse rh c resp i).2.getLast? = some (classifyEff c resp i) ∧
    (rh.statusListener = true → rh.connectStatus ≠ Status.RUNNING →
      Effect.listener Status.RUNNING ∈ (handleResponse rh c resp i).2.dropLast) := by
  by_cases hrun : rh.connectStatus = Status.RUNNING
  · by_cases hcls : c = 200 ∧ resp.hasError = false
    · simp [handleResponse, hns, hreq, hc, hrun, hcls, classifyEff]
    · simp [handleResponse, hns, hreq, hc, hrun, hcls, classifyEff]
  · by_cases hcls : c = 200 ∧ resp.hasError = false
    · simp [handleResponse, hns, hreq, hc, hrun, hcls, classifyEff, ccs_running,
        List.getLast?_concat, List.dropLast_concat]
      tauto
    · simp [handleResponse, hns, hreq, hc, hrun, hcls, classifyEff, ccs_running,
        List.getLast?_concat, List.dropLast_concat]
      tauto

/-- An OUTDATED handler with a listener and one pending request. -/
def rhC9 : RequestHandler :=
  { initHandler "" "sdk" false true with
      connectStatus := Status.OUTDATED,
      idCallbackHash := [(0, ⟨0, "GET", "/connect/transfers/info", none⟩)],
      nextId := 1 }

/-- Witness for C9_promote_on_response: an error response (httpCode 500)
promotes OUTDATED to RUNNING, notifies the listener, and then invokes the
error callback. -/
theorem C9_promote_on_response_witness :
    (handleResponse rhC9 500 ⟨true, ""⟩ 0).1.connectStatus = Status.RUNNING ∧
    (handleResponse rhC9 500 ⟨true, ""⟩ 0).2.getLast? = some (Effect.errorCb 0) ∧
    Effect.listener Status.RUNNING ∈ (handleResponse rhC9 500 ⟨true, ""⟩ 0).2.dropLast := by
  have h := C9_promote_on_response rhC9 500 ⟨true, ""⟩ 0
    ⟨0, "GET", "/connect/transfers/info", none⟩ (by decide) (by decide) (by decide)
  exact ⟨h.1, h.2.1, h.2.2 rfl (by decide)⟩

/-! ## Claim C8: deletion from the pending-request table -/

/-- C8 (amended): every path of `handleResponse` with a non-zero httpCode
that invokes the success or error callback also deletes the pending entry,
exactly once (exactly one callback event fires and the id is gone from the
table); the httpCode-0 paths leave the entry in place — in particular the
polling-debounce path invokes the error callback while the request remains
in the table, so the claimed "deleted on whichever callback path fires"
does not hold for that path. -/
theorem C8_delete_once (rh : RequestHandler) (c : Nat) (resp : ParsedResponse)
    (i : Nat) (req : IRequest)
    (hns : rh.connectStatus ≠ Status.STOPPED)
    (hreq : hashLookup rh.idCallbackHash i = some req) :
    (c ≠ 0 →
      hashLookup (handleResponse rh c resp i).1.idCallbackHash i = none ∧
      cbCount (handleResponse rh c resp i).2 i = 1) ∧
    (c = 0 →
      hashLookup (handleResponse rh c resp i).1.idCallbackHash i = some req ∧
      (rh.pollingRequestErrors < MAX_POLLING_ERRORS ∧
          0 < jsIndexOf req.path "/connect/transfers/activity" →
        (handleResponse rh c resp i).2 = [Effect.errorCb i])) := by
  constructor
  · intro hc
    by_cases hrun : rh.connectStatus = Status.RUNNING
    · by_cases hcls : c = 200 ∧ resp.hasError = false
      · simp [handleResponse, hns, hreq, hc, hrun, hcls, hashLookup_delete,
          cbCount_append, cbCount]
      · simp [handleResponse, hns, hreq, hc, hrun, hcls, hashLookup_delete,
          cbCount_append, cbCount]
    · by_cases hcls : c = 200 ∧ resp.hasError = false
      · simp [handleResponse, hns, hreq, hc, hrun, hcls, ccs_running,
          hashLookup_delete, cbCount_append, cbCount_processQueue,
          cbCount_listener_ite, cbCount_single_success, cbCount_single_error]
      · simp [handleResponse, hns, hreq, hc, hrun, hcls, ccs_running,
          hashLookup_delete, cbCount_append, cbCount_processQueue,
          cbCount_listener_ite, cbCount_single_success, cbCount_single_error]
  · intro hc
    subst hc
    by_cases hdeb : rh.pollingRequestErrors < MAX_POLLING_ERRORS ∧
        0 < jsIndexOf req.path "/connect/transfers/activity"
    · simp [handleResponse, hns, hreq, hdeb]
    · simp [handleResponse, hns, hreq, hdeb]

/-- A request whose stored path holds the polling substring at a positive
index, so the debounce branch is reachable. -/
def reqC8 : IRequest :=
  { id := 0, method := "POST", path := "/v6/connect/transfers/activity", data := none }

/-- A handler with that request pending and no polling errors yet. -/
def rhC8 : RequestHandler :=
  { initHandler "" "sdk" false false with idCallbackHash := [(0, reqC8)], nextId := 1 }

/-- Counterexample to C8 as stated: the polling-debounce path of
`handleResponse` invokes the error callback, yet the entry is still present
in idCallbackHash afterwards — a callback path that does not delete the
entry. -/
theorem C8_debounce_keeps_entry :
    (handleResponse rhC8 0 ⟨false, ""⟩ 0).2 = [Effect.errorCb 0] ∧
    hashLookup (handleResponse rhC8 0 ⟨false, ""⟩ 0).1.idCallbackHash 0 = some reqC8 := by
  decide

/-- Witness for C8_delete_once: a 200 success response deletes the pending
entry and fires exactly one callback; an httpCode-0 response leaves the
entry pending. -/
theorem C8_delete_once_witness :
    (hashLookup (handleResponse rhC8 200 ⟨false, ""⟩ 0).1.idCallbackHash 0 = none ∧
      cbCount (handleResponse rhC8 200 ⟨false, ""⟩ 0).2 0 = 1) ∧
    hashLookup (handleResponse rhC8 0 ⟨false, ""⟩ 0).1.idCallbackHash 0 = some reqC8 := by
  have h200 := C8_delete_once rhC8 200 ⟨false, ""⟩ 0 reqC8 (by decide) (by decide)
  have h0 := C8_delete_once rhC8 0 ⟨false, ""⟩ 0 reqC8 (by decide) (by decide)
  exact ⟨h200.1 (by decide), (h0.2 rfl).1⟩

/-! ## Claim C4: the version gate -/

/-- C4 (amended with the not-already-OUTDATED precondition): with no
version-check exception set and the handler not already OUTDATED, recording
an agent version via a parseable 200 response makes the effective minimum
the max of the caller minVersion and the hardcoded floor
MIN_SECURE_VERSION = "3.8.0" (it is one of the two and neither is greater);
if the recorded version is below it, status transitions to OUTDATED and a
POST to /connect/update/require with body
{min_version: effective minimum, sdk_location: configured} is issued;
otherwise status transitions to RUNNING. -/
theorem C4_version_gate (rh : RequestHandler) (v : String) (i : Nat)
    (hexc : rh.checkVersionException = false)
    (hst : rh.connectStatus ≠ Status.OUTDATED) :
    versionLessThan (effectiveMin rh.minVersion) MIN_SECURE_VERSION = false ∧
    (rh.minVersion ≠ "" → versionLessThan (effectiveMin rh.minVersion) rh.minVersion = false) ∧
    (effectiveMin rh.minVersion = MIN_SECURE_VERSION ∨ effectiveMin rh.minVersion = rh.minVersion) ∧
    (versionLessThan v (effectiveMin rh.minVersion) = true →
      (checkVersionCallback rh 200 ⟨false, v⟩ i).1.connectStatus = Status.OUTDATED ∧
      Effect.httpRequest "POST" "/connect/update/require"
          (ReqBody.updateRequire (effectiveMin rh.minVersion) rh.sdkLocation)
          CallbackKind.noCallback rh.nextId ∈ (checkVersionCallback rh 200 ⟨false, v⟩ i).2) ∧
    (versionLessThan v (effectiveMin rh.minVersion) = false →
      (checkVersionCallback rh 200 ⟨false, v⟩ i).1.connectStatus = Status.RUNNING) := by
  refine ⟨?_, ?_, ?_, ?_, ?_⟩
  · unfold effectiveMin
    split
    · exact versionLessThan_self MIN_SECURE_VERSION
    · rename_i hcond
      simp only [not_or, Bool.not_eq_true] at hcond
      exact hcond.2
  · intro hne
    unfold effectiveMin
    split
    · rename_i hcond
      rcases hcond with hemp | hlow
      · exact absurd hemp hne
      · exact versionLessThan_asymm _ _ hlow
    · exact versionLessThan_self rh.minVersion
  · unfold effectiveMin
    split
    · exact Or.inl rfl
    · exact Or.inr rfl
  · intro hlt
    simp [checkVersionCallback, hexc, hst, hlt, ccs_outdated]
  · intro hnlt
    simp [checkVersionCallback, hexc, hst, hnlt, ccs_running]

/-- The C4 scenario handler: INITIALIZING, no caller minVersion, no
exception. -/
def rhC4 : RequestHandler :=
  { initHandler "" "sdkloc" false true with
      idCallbackHash := [(0, ⟨0, "GET", "/connect/info/version", none⟩)],
      nextId := 1 }

/-- Witness for C4_version_gate, the spec scenario: receiving
{version:"3.7.0"} with no caller minVersion moves INITIALIZING to OUTDATED
and issues the update-required POST with min_version "3.8.0". -/
theorem C4_version_gate_witness :
    (checkVersionCallback rhC4 200 ⟨false, "3.7.0"⟩ 0).1.connectStatus = Status.OUTDATED ∧
    Effect.httpRequest "POST" "/connect/update/require"
        (ReqBody.updateRequire "3.8.0" "sdkloc") CallbackKind.noCallback 1 ∈
      (checkVersionCallback rhC4 200 ⟨false, "3.7.0"⟩ 0).2 := by
  have h := (C4_version_gate rhC4 "3.7.0" 0 (by decide) (by decide)).2.2.2.1 (by decide)
  simpa using h

/-- An already-OUTDATED handler with no exception and the version request
pending. -/
def rhC4x : RequestHandler :=
  { initHandler "" "sdkloc" false false with
      connectStatus := Status.OUTDATED,
      idCallbackHash := [(0, ⟨0, "GET", "/connect/info/version", none⟩)],
      nextId := 1 }

/-- Counterexample to C4 as stated: with no exception set,
`checkVersionCallback` on an already-OUTDATED handler records an up-to-date
version ("3.9.0" is not below the floor "3.8.0") yet returns without any
transition — status stays OUTDATED instead of transitioning to RUNNING
(the refuse-to-downgrade guard at request.ts line 102). -/
theorem C4_outdated_latch :
    rhC4x.checkVersionException = false ∧
    versionLessThan "3.9.0" "3.8.0" = false ∧
    (checkVersionCallback rhC4x 200 ⟨false, "3.9.0"⟩ 0).1.connectVersion = "3.9.0" ∧
    (checkVersionCallback rhC4x 200 ⟨false, "3.9.0"⟩ 0).1.connectStatus = Status.OUTDATED ∧
    (checkVersionCallback rhC4x 200 ⟨false, "3.9.0"⟩ 0).2 = [] ∧
    Status.OUTDATED ≠ Status.RUNNING := by
  decide

/-! ## Invariant machinery for id uniqueness (C3) and queue preservation (C1) -/

theorem hashKeys_append (h1 h2 : List (Nat × IRequest)) :
    hashKeys (h1 ++ h2) = hashKeys h1 ++ hashKeys h2 := by
  simp [hashKeys]

theorem hashInsert_fresh (h : List (Nat × IRequest)) (k : Nat) (v : IRequest)
    (hk : ∀ p ∈ h, p.1 ≠ k) : hashInsert h k v = h ++ [(k, v)] := by
  have hnone : h.find? (fun p => p.1 == k) = none :=
    List.find?_eq_none.mpr (by intro p hp; simpa using hk p hp)
  simp [hashInsert, hnone]

theorem invP_insert (h : List (Nat × IRequest)) (q : List IRequest) (n : Nat)
    (v : IRequest) (hv : v.id = n) (hi : invP h q n) :
    invP (hashInsert h n v) q (n + 1) := by
  obtain ⟨h1, h2, h3⟩ := hi
  have hfresh : ∀ p ∈ h, p.1 ≠ n := fun p hp => Nat.ne_of_lt (h2 p hp).2
  rw [hashInsert_fresh h n v hfresh]
  refine ⟨?_, ?_, ?_⟩
  · rw [hashKeys_append, List.nodup_append]
    refine ⟨h1, by simp [hashKeys], ?_⟩
    intro a ha hb
    rcases List.mem_map.mp ha with ⟨p, hp, rfl⟩
    simp [hashKeys] at hb
    exact hfresh p hp hb
  · intro p hp
    rcases List.mem_append.mp hp with hp1 | hp2
    · exact ⟨(h2 p hp1).1, Nat.lt_succ_of_lt (h2 p hp1).2⟩
    · have hp' : p = (n, v) := by simpa using hp2
      subst hp'
      exact ⟨hv, by omega⟩
  · intro r hr
    exact Nat.lt_succ_of_lt (h3 r hr)

theorem invP_delete (h : List (Nat × IRequest)) (q : List IRequest) (n k : Nat)
    (hi : invP h q n) : invP (hashDelete h k) q n := by
  obtain ⟨h1, h2, h3⟩ := hi
  refine ⟨?_, ?_, h3⟩
  · have hsub : (hashDelete h k).Sublist h := List.filter_sublist h
    have hsub2 : (hashKeys (hashDelete h k)).Sublist (hashKeys h) := by
      simpa [hashKeys] using hsub.map (fun p => p.1)
    exact h1.sublist hsub2
  · intro p hp
    exact h2 p (List.mem_of_mem_filter hp)

theorem invP_queue_push (h : List (Nat × IRequest)) (q : List IRequest) (n : Nat)
    (r : IRequest) (hr : r.id < n) (hi : invP h q n) : invP h (q ++ [r]) n := by
  obtain ⟨h1, h2, h3⟩ := hi
  refine ⟨h1, h2, ?_⟩
  intro x hx
  rcases List.mem_append.mp hx with hx1 | hx2
  · exact h3 x hx1
  · simp at hx2
    subst hx2
    exact hr

theorem invP_queue_clear (h : List (Nat × IRequest)) (q : List IRequest) (n : Nat)
    (hi : invP h q n) : invP h [] n :=
  ⟨hi.1, hi.2.1, by simp⟩

theorem invP_lookup (h : List (Nat × IRequest)) (q : List IRequest) (n i : Nat)
    (req : IRequest) (hl : hashLookup h i = some req) (hi : invP h q n) :
    req.id = i ∧ i < n := by
  obtain ⟨_, h2, _⟩ := hi
  unfold hashLookup at hl
  rcases Option.map_eq_some'.mp hl with ⟨p, hfind, hp2⟩
  have hmem : p ∈ h := List.mem_of_find?_eq_some hfind
  have hkey : p.1 = i := by simpa using List.find?_some hfind
  obtain ⟨hid, hlt⟩ := h2 p hmem
  subst hp2
  omega

theorem allocIds_append (l1 l2 : List Effect) :
    allocIds (l1 ++ l2) = allocIds l1 ++ allocIds l2 := by
  simp [allocIds]

theorem allocIds_processQueue (q : List IRequest) :
    allocIds (processQueueEffects q) = [] := by
  rw [processQueueEffects_eq, allocIds, List.filterMap_eq_nil_iff]
  intro e he
  rcases List.mem_map.mp he with ⟨r, _, rfl⟩
  simp [sendEff]

theorem allocIds_listener_ite (b : Bool) (s : Status) :
    allocIds (if b then [Effect.listener s] else []) = [] := by
  cases b <;> simp [allocIds]

theorem allocIds_nil : allocIds [] = [] := rfl

theorem allocIds_success (i : Nat) : allocIds [Effect.successCb i] = [] := rfl

theorem allocIds_error (i : Nat) : allocIds [Effect.errorCb i] = [] := rfl

/-! Normal forms of `start` under the status guards. -/

theorem start_stopped (rh : RequestHandler) (m p : String) (d : Option String)
    (h : rh.connectStatus = Status.STOPPED) : start rh m p d = (rh, []) := by
  simp [start, h]

theorem start_queued (rh : RequestHandler) (m p : String) (d : Option String)
    (hns : rh.connectStatus ≠ Status.STOPPED) (hnd : rh.connectStatus ≠ Status.DEGRADED)
    (hnr : rh.connectStatus ≠ Status.RUNNING) :
    start rh m p d =
      ({ rh with
          nextId := rh.nextId + 1,
          idCallbackHash := hashInsert rh.idCallbackHash rh.nextId ⟨rh.nextId, m, p, d⟩,
          requestQueue := rh.requestQueue ++ [⟨rh.nextId, m, p, d⟩] },
       [Effect.alloc rh.nextId]) := by
  simp [start, hns, hnd, hnr]

theorem start_degraded (rh : RequestHandler) (m p : String) (d : Option String)
    (hd : rh.connectStatus = Status.DEGRADED) :
    start rh m p d =
      ({ rh with
          nextId := rh.nextId + 1 + 1,
          idCallbackHash :=
            hashInsert (hashInsert rh.idCallbackHash rh.nextId ⟨rh.nextId, m, p, d⟩)
              (rh.nextId + 1) ⟨rh.nextId + 1, "GET", "/connect/info/version", none⟩,
          requestQueue := rh.requestQueue ++ [⟨rh.nextId, m, p, d⟩] },
       [Effect.alloc rh.nextId, Effect.alloc (rh.nextId + 1),
        Effect.httpRequest "GET" "/connect/info/version" ReqBody.noData
          CallbackKind.checkVersionCallback (rh.nextId + 1)]) := by
  simp [start, checkVersion, hd]

theorem start_running (rh : RequestHandler) (m p : String) (d : Option String)
    (hr : rh.connectStatus = Status.RUNNING) :
    start rh m p d =
      ({ rh with
          nextId := rh.nextId + 1,
          idCallbackHash := hashInsert rh.idCallbackHash rh.nextId ⟨rh.nextId, m, p, d⟩ },
       [Effect.alloc rh.nextId, sendEff ⟨rh.nextId, m, p, d⟩]) := by
  simp [start, hr]

/-! Packaging lemmas for the per-operation allocation spec. -/

def OpSpec (rh rh' : RequestHandler) (effs : List Effect) : Prop :=
  Inv rh' ∧ rh.nextId ≤ rh'.nextId ∧ List.Pairwise (· < ·) (allocIds effs) ∧
    (∀ a ∈ allocIds effs, rh.nextId ≤ a ∧ a < rh'.nextId)

theorem opSpec_trivial (rh rh' : RequestHandler) (effs : List Effect)
    (hstate : Inv rh') (hn : rh.nextId ≤ rh'.nextId) (ha : allocIds effs = []) :
    OpSpec rh rh' effs := by
  refine ⟨hstate, hn, ?_, ?_⟩ <;> simp [ha]

theorem opSpec_single (rh rh' : RequestHandler) (effs : List Effect)
    (hstate : Inv rh') (hn : rh'.nextId = rh.nextId + 1) (ha : allocIds effs = [rh.nextId]) :
    OpSpec rh rh' effs := by
  refine ⟨hstate, by omega, by simp [ha], ?_⟩
  intro a haa
  rw [ha] at haa
  simp at haa
  omega

theorem opSpec_double (rh rh' : RequestHandler) (effs : List Effect)
    (hstate : Inv rh') (hn : rh'.nextId = rh.nextId + 1 + 1)
    (ha : allocIds effs = [rh.nextId, rh.nextId + 1]) :
    OpSpec rh rh' effs := by
  refine ⟨hstate, by omega, ?_, ?_⟩
  · rw [ha]
    refine List.pairwise_cons.mpr ⟨?_, by simp⟩
    intro b hb
    simp at hb
    omega
  · intro a haa
    rw [ha] at haa
    simp at haa
    rcases haa with rfl | rfl <;> omega

/-- Every operation preserves the data invariant, never decreases the id
counter, and allocates only fresh, strictly increasing ids. -/
theorem runOp_spec (rh : RequestHandler) (op : Op) (hinv : Inv rh) :
    OpSpec rh (runOp rh op).1 (runOp rh op).2 := by
  cases op with
  | start m p d =>
    by_cases hstop : rh.connectStatus = Status.STOPPED
    · rw [runOp, start_stopped rh m p d hstop]
      exact opSpec_trivial _ _ _ hinv (le_refl _) rfl
    · by_cases hdeg : rh.connectStatus = Status.DEGRADED
      · rw [runOp, start_degraded rh m p d hdeg]
        refine opSpec_double _ _ _ ?_ rfl (by simp [allocIds])
        have s1 := invP_insert _ _ _ ⟨rh.nextId, m, p, d⟩ rfl hinv
        have s2 := invP_insert _ _ _ ⟨rh.nextId + 1, "GET", "/connect/info/version", none⟩ rfl s1
        exact invP_queue_push _ _ _ ⟨rh.nextId, m, p, d⟩
          (show rh.nextId < rh.nextId + 1 + 1 by omega) s2
      · by_cases hrun : rh.connectStatus = Status.RUNNING
        · rw [runOp, start_running rh m p d hrun]
          refine opSpec_single _ _ _ ?_ rfl (by simp [allocIds, sendEff])
          exact invP_insert _ _ _ ⟨rh.nextId, m, p, d⟩ rfl hinv
        · rw [runOp, start_queued rh m p d hstop hdeg hrun]
          refine opSpec_single _ _ _ ?_ rfl (by simp [allocIds])
          have s1 := invP_insert _ _ _ ⟨rh.nextId, m, p, d⟩ rfl hinv
          exact invP_queue_push _ _ _ ⟨rh.nextId, m, p, d⟩
            (show rh.nextId < rh.nextId + 1 by omega) s1
  | handleResponse c resp i =>
    by_cases hstop : rh.connectStatus = Status.STOPPED
    · simp only [runOp, handleResponse, if_pos hstop]
      exact opSpec_trivial _ _ _ hinv (le_refl _) rfl
    · cases hl : hashLookup rh.idCallbackHash i with
      | none =>
        simp only [runOp, handleResponse, if_neg hstop, hl]
        exact opSpec_trivial _ _ _ hinv (le_refl _) rfl
      | some req =>
        by_cases hc0 : c = 0
        · subst hc0
          by_cases hdeb : rh.pollingRequestErrors < MAX_POLLING_ERRORS ∧
              0 < jsIndexOf req.path "/connect/transfers/activity"
          · simp [runOp, handleResponse, hstop, hl, hdeb]
            exact opSpec_trivial _ _ _ hinv (le_refl _) rfl
          · simp [runOp, handleResponse, hstop, hl, hdeb]
            have hid := invP_lookup _ _ _ _ req hl hinv
            have hlt : req.id < rh.nextId := by omega
            exact opSpec_trivial _ _ _ (invP_queue_push _ _ _ req hlt hinv) (le_refl _) rfl
        · by_cases hcls : c = 200 ∧ resp.hasError = false
          all_goals by_cases hrun : rh.connectStatus = Status.RUNNING
          · simp [runOp, handleResponse, hstop, hl, hc0, hcls, hrun]
            exact opSpec_trivial _ _ _ (invP_delete _ _ _ _ hinv) (le_refl _) rfl
          · simp [runOp, handleResponse, hstop, hl, hc0, hcls, hrun, ccs_running]
            refine opSpec_trivial _ _ _ ?_ (le_refl _) ?_
            · exact invP_delete _ _ _ _ (invP_queue_clear _ _ _ hinv)
            · simp [allocIds_append, allocIds_processQueue, allocIds_listener_ite,
                allocIds_success, allocIds_error, allocIds_nil]
          · simp [runOp, handleResponse, hstop, hl, hc0, hcls, hrun]
            exact opSpec_trivial _ _ _ (invP_delete _ _ _ _ hinv) (le_refl _) rfl
          · simp [runOp, handleResponse, hstop, hl, hc0, hcls, hrun, ccs_running]
            refine opSpec_trivial _ _ _ ?_ (le_refl _) ?_
            · exact invP_delete _ _ _ _ (invP_queue_clear _ _ _ hinv)
            · simp [allocIds_append, allocIds_processQueue, allocIds_listener_ite,
                allocIds_success, allocIds_error, allocIds_nil]
  | checkVersionCb c resp i =>
    by_cases hc200 : c = 200
    · by_cases hhe : resp.hasError = true
      · simp [runOp, checkVersionCallback, hc200, hhe]
        exact opSpec_trivial _ _ _ (invP_delete _ _ _ _ hinv) (le_refl _) rfl
      · by_cases hexc : rh.checkVersionException = true
        · simp [runOp, checkVersionCallback, hc200, hhe, hexc, ccs_running]
          refine opSpec_trivial _ _ _ ?_ (le_refl _) ?_
          · exact invP_queue_clear _ _ _ (invP_delete _ _ _ _ hinv)
          · simp [allocIds_append, allocIds_processQueue, allocIds_listener_ite, allocIds_nil]
        · by_cases hout : rh.connectStatus = Status.OUTDATED
          · simp [runOp, checkVersionCallback, hc200, hhe, hexc, hout]
            exact opSpec_trivial _ _ _ (invP_delete _ _ _ _ hinv) (le_refl _) rfl
          · by_cases hv : versionLessThan resp.version (effectiveMin rh.minVersion) = true
            · simp [runOp, checkVersionCallback, hc200, hhe, hexc, hout, hv, ccs_outdated]
              refine opSpec_single _ _ _ ?_ rfl ?_
              · exact invP_insert _ _ _ _ rfl (invP_delete _ _ _ _ hinv)
              · simp [allocIds_append, allocIds_listener_ite, allocIds]
            · simp [runOp, checkVersionCallback, hc200, hhe, hexc, hout, hv, ccs_running]
              refine opSpec_trivial _ _ _ ?_ (le_refl _) ?_
              · exact invP_queue_clear _ _ _ (invP_delete _ _ _ _ hinv)
              · simp [allocIds_append, allocIds_processQueue, allocIds_listener_ite, allocIds_nil]
    · by_cases hexc : rh.checkVersionException = true
      · simp [runOp, checkVersionCallback, hc200, hexc, ccs_running]
        refine opSpec_trivial _ _ _ ?_ (le_refl _) ?_
        · exact invP_queue_clear _ _ _ (invP_delete _ _ _ _ hinv)
        · simp [allocIds_append, allocIds_processQueue, allocIds_listener_ite, allocIds_nil]
      · by_cases hout : rh.connectStatus = Status.OUTDATED
        · simp [runOp, checkVersionCallback, hc200, hexc, hout]
          exact opSpec_trivial _ _ _ (invP_delete _ _ _ _ hinv) (le_refl _) rfl
        · by_cases hv : versionLessThan rh.connectVersion (effectiveMin rh.minVersion) = true
          · simp [runOp, checkVersionCallback, hc200, hexc, hout, hv, ccs_outdated]
            refine opSpec_single _ _ _ ?_ rfl ?_
            · exact invP_insert _ _ _ _ rfl (invP_delete _ _ _ _ hinv)
            · simp [allocIds_append, allocIds_listener_ite, allocIds]
          · simp [runOp, checkVersionCallback, hc200, hexc, hout, hv, ccs_running]
            refine opSpec_trivial _ _ _ ?_ (le_refl _) ?_
            · exact invP_queue_clear _ _ _ (invP_delete _ _ _ _ hinv)
            · simp [allocIds_append, allocIds_processQueue, allocIds_listener_ite, allocIds_nil]
  | changeStatus s =>
    by_cases hr : s = Status.RUNNING
    · subst hr
      rw [runOp, ccs_running]
      refine opSpec_trivial _ _ _ (invP_queue_clear _ _ _ hinv) (le_refl _) ?_
      simp [allocIds_append, allocIds_processQueue, allocIds_listener_ite]
    · by_cases hd : s = Status.DEGRADED
      · subst hd
        rw [runOp, ccs_degraded]
        exact opSpec_single _ _ _ (invP_insert _ _ _ _ rfl hinv) rfl (by simp [allocIds])
      · rw [runOp, ccs_other rh s hr hd]
        exact opSpec_trivial _ _ _ hinv (le_refl _) (allocIds_listener_ite _ _)
  | checkVersion =>
    simp only [runOp, checkVersion]
    exact opSpec_single _ _ _ (invP_insert _ _ _ _ rfl hinv) rfl (by simp [allocIds])
  | stopRequests b =>
    simp only [runOp, stopRequests]
    refine opSpec_trivial _ _ _ hinv (le_refl _) ?_
    cases b <;> simp [allocIds]

/-- The whole-trace version of `runOp_spec`: the invariant is preserved,
and the ids allocated along any operation sequence are strictly
increasing. -/
theorem runTrace_spec (ops : List Op) : ∀ rh : RequestHandler, Inv rh →
    Inv (runTrace rh ops).1 ∧
    rh.nextId ≤ (runTrace rh ops).1.nextId ∧
    List.Pairwise (· < ·) (allocIds (runTrace rh ops).2) ∧
    (∀ a ∈ allocIds (runTrace rh ops).2, rh.nextId ≤ a ∧ a < (runTrace rh ops).1.nextId) := by
  induction ops with
  | nil =>
    intro rh h
    exact ⟨h, le_refl _, by simp [runTrace, allocIds_nil], by simp [runTrace, allocIds_nil]⟩
  | cons op ops ih =>
    intro rh h
    obtain ⟨h1, h2, h3, h4⟩ := runOp_spec rh op h
    obtain ⟨g1, g2, g3, g4⟩ := ih (runOp rh op).1 h1
    have hstate : (runTrace rh (op :: ops)).1 = (runTrace (runOp rh op).1 ops).1 := by
      simp [runTrace]
    have heffs : (runTrace rh (op :: ops)).2 =
        (runOp rh op).2 ++ (runTrace (runOp rh op).1 ops).2 := by
      simp [runTrace]
    refine ⟨?_, ?_, ?_, ?_⟩
    · rw [hstate]
      exact g1
    · rw [hstate]
      exact le_trans h2 g2
    · rw [heffs, allocIds_append]
      refine List.pairwise_append.mpr ⟨h3, g3, ?_⟩
      intro a ha b hb
      exact lt_of_lt_of_le (h4 a ha).2 (g4 b hb).1
    · rw [heffs, hstate, allocIds_append]
      intro a ha
      rcases List.mem_append.mp ha with ha1 | ha2
      · exact ⟨(h4 a ha1).1, lt_of_lt_of_le (h4 a ha1).2 g2⟩
      · exact ⟨le_trans h2 (g4 a ha2).1, (g4 a ha2).2⟩

/-! ## Claim C3: id uniqueness over an instance lifetime -/

/-- C3: within one RequestHandler instance, for every sequence of
operations and responses, the ids allocated by the single monotonic
`nextId` counter (in `start`, `checkVersion` and the update-required
request of `checkVersionCallback`) are pairwise distinct over the whole
trace, and the keys of `idCallbackHash` are pairwise distinct in the
resulting state. -/
theorem C3_request_ids_unique (minV sdkLoc : String) (exc lst : Bool) (ops : List Op) :
    (allocIds (runTrace (initHandler minV sdkLoc exc lst) ops).2).Nodup ∧
    (hashKeys (runTrace (initHandler minV sdkLoc exc lst) ops).1.idCallbackHash).Nodup := by
  have hinv : Inv (initHandler minV sdkLoc exc lst) := by
    refine ⟨?_, ?_, ?_⟩ <;> simp [initHandler, hashKeys]
  obtain ⟨h1, _, h3, _⟩ := runTrace_spec ops _ hinv
  constructor
  · exact List.Pairwise.imp (fun hab => Nat.ne_of_lt hab) h3
  · exact h1.1

/-! ## Queue preservation (claim C1) -/

theorem httpIds_listener_ite (b : Bool) (s : Status) :
    httpIds (if b then [Effect.listener s] else []) = [] := by
  cases b <;> simp [httpIds]

/-- A queued request with an already-allocated id is, on any single
operation, either drained by a transition to RUNNING (the only way it is
ever sent), or still queued with no adapter call carrying its id. -/
theorem runOp_queue_preserved (rh : RequestHandler) (r : IRequest) (op : Op)
    (hr : r ∈ rh.requestQueue) (hid : r.id < rh.nextId) :
    (runOp rh op).1.connectStatus = Status.RUNNING ∨
    (r ∈ (runOp rh op).1.requestQueue ∧ ¬ sendsId (runOp rh op).2 r.id) := by
  cases op with
  | start m p d =>
    by_cases hstop : rh.connectStatus = Status.STOPPED
    · rw [runOp, start_stopped rh m p d hstop]
      exact Or.inr ⟨hr, by simp [sendsId, httpIds]⟩
    · by_cases hdeg : rh.connectStatus = Status.DEGRADED
      · rw [runOp, start_degraded rh m p d hdeg]
        refine Or.inr ⟨List.mem_append_left _ hr, ?_⟩
        simp [sendsId, httpIds]
        omega
      · by_cases hrun : rh.connectStatus = Status.RUNNING
        · rw [runOp, start_running rh m p d hrun]
          exact Or.inl hrun
        · rw [runOp, start_queued rh m p d hstop hdeg hrun]
          exact Or.inr ⟨List.mem_append_left _ hr, by simp [sendsId, httpIds]⟩
  | handleResponse c resp i =>
    by_cases hstop : rh.connectStatus = Status.STOPPED
    · simp only [runOp, handleResponse, if_pos hstop]
      exact Or.inr ⟨hr, by simp [sendsId, httpIds]⟩
    · cases hl : hashLookup rh.idCallbackHash i with
      | none =>
        simp only [runOp, handleResponse, if_neg hstop, hl]
        exact Or.inr ⟨hr, by simp [sendsId, httpIds]⟩
      | some req =>
        by_cases hc0 : c = 0
        · subst hc0
          by_cases hdeb : rh.pollingRequestErrors < MAX_POLLING_ERRORS ∧
              0 < jsIndexOf req.path "/connect/transfers/activity"
          · refine Or.inr ⟨?_, ?_⟩
            · simp [runOp, handleResponse, hstop, hl, hdeb]
              exact hr
            · simp [runOp, handleResponse, hstop, hl, hdeb, sendsId, httpIds]
          · refine Or.inr ⟨?_, ?_⟩
            · simp [runOp, handleResponse, hstop, hl, hdeb]
              exact Or.inl hr
            · simp [runOp, handleResponse, hstop, hl, hdeb, sendsId, httpIds]
        · refine Or.inl ?_
          by_cases hcls : c = 200 ∧ resp.hasError = false
          all_goals by_cases hrun : rh.connectStatus = Status.RUNNING
          · simp [runOp, handleResponse, hstop, hl, hc0, hcls, hrun]
          · simp [runOp, handleResponse, hstop, hl, hc0, hcls, hrun, ccs_running]
          · simp [runOp, handleResponse, hstop, hl, hc0, hcls, hrun]
          · simp [runOp, handleResponse, hstop, hl, hc0, hcls, hrun, ccs_running]
  | checkVersionCb c resp i =>
    by_cases hc200 : c = 200
    · by_cases hhe : resp.hasError = true
      · refine Or.inr ⟨?_, ?_⟩
        · simp [runOp, checkVersionCallback, hc200, hhe]
          exact hr
        · simp [runOp, checkVersionCallback, hc200, hhe, sendsId, httpIds]
      · by_cases hexc : rh.checkVersionException = true
        · refine Or.inl ?_
          simp [runOp, checkVersionCallback, hc200, hhe, hexc, ccs_running]
        · by_cases hout : rh.connectStatus = Status.OUTDATED
          · refine Or.inr ⟨?_, ?_⟩
            · simp [runOp, checkVersionCallback, hc200, hhe, hexc, hout]
              exact hr
            · simp [runOp, checkVersionCallback, hc200, hhe, hexc, hout, sendsId, httpIds]
          · by_cases hv : versionLessThan resp.version (effectiveMin rh.minVersion) = true
            · refine Or.inr ⟨?_, ?_⟩
              · simp [runOp, checkVersionCallback, hc200, hhe, hexc, hout, hv, ccs_outdated]
                exact hr
              · simp [runOp, checkVersionCallback, hc200, hhe, hexc, hout, hv, ccs_outdated,
                  sendsId, httpIds, httpIds_listener_ite]
                omega
            · refine Or.inl ?_
              simp [runOp, checkVersionCallback, hc200, hhe, hexc, hout, hv, ccs_running]
    · by_cases hexc : rh.checkVersionException = true
      · refine Or.inl ?_
        simp [runOp, checkVersionCallback, hc200, hexc, ccs_running]
      · by_cases hout : rh.connectStatus = Status.OUTDATED
        · refine Or.inr ⟨?_, ?_⟩
          · simp [runOp, checkVersionCallback, hc200, hexc, hout]
            exact hr
          · simp [runOp, checkVersionCallback, hc200, hexc, hout, sendsId, httpIds]
        · by_cases hv : versionLessThan rh.connectVersion (effectiveMin rh.minVersion) = true
          · refine Or.inr ⟨?_, ?_⟩
            · simp [runOp, checkVersionCallback, hc200, hexc, hout, hv, ccs_outdated]
              exact hr
            · simp [runOp, checkVersionCallback, hc200, hexc, hout, hv, ccs_outdated,
                sendsId, httpIds, httpIds_listener_ite]
              omega
          · refine Or.inl ?_
            simp [runOp, checkVersionCallback, hc200, hexc, hout, hv, ccs_running]
  | changeStatus s =>
    by_cases hrs : s = Status.RUNNING
    · subst hrs
      rw [runOp, ccs_running]
      exact Or.inl rfl
    · by_cases hd : s = Status.DEGRADED
      · subst hd
        rw [runOp, ccs_degraded]
        refine Or.inr ⟨hr, ?_⟩
        simp [sendsId, httpIds]
        omega
      · rw [runOp, ccs_other rh s hrs hd]
        refine Or.inr ⟨hr, ?_⟩
        cases hsl : rh.statusListener <;> simp [sendsId, httpIds, hsl]
  | checkVersion =>
    simp only [runOp, checkVersion]
    refine Or.inr ⟨hr, ?_⟩
    simp [sendsId, httpIds]
    omega
  | stopRequests b =>
    simp only [runOp, stopRequests]
    refine Or.inr ⟨hr, ?_⟩
    cases b <;> simp [sendsId, httpIds]

/-! ## Claim C1: queuing while not RUNNING, and the drain on RUNNING -/

/-- C1 (amended with the STOPPED exclusion): for every request submitted via
`start` while connectStatus is neither RUNNING nor STOPPED, the request is
appended to the RequestQueue and no adapter httpRequest call carries its id;
a queued request stays queued and unsent under any operation unless that
operation ends with a transition to RUNNING; and when `changeConnectStatus`
sets status to RUNNING, `processQueue` sends every currently queued request
exactly once, newest first (pop-from-end order), and leaves the RequestQueue
empty.  (While STOPPED, `start` queues nothing — see the counterexample.) -/
theorem C1_queue_until_running (rh : RequestHandler) (m p : String) (d : Option String)
    (r : IRequest) (op : Op)
    (hnr : rh.connectStatus ≠ Status.RUNNING)
    (hns : rh.connectStatus ≠ Status.STOPPED)
    (hr : r ∈ rh.requestQueue)
    (hid : r.id < rh.nextId) :
    ((start rh m p d).1.requestQueue = rh.requestQueue ++ [⟨rh.nextId, m, p, d⟩] ∧
      ¬ sendsId (start rh m p d).2 rh.nextId) ∧
    ((runOp rh op).1.connectStatus = Status.RUNNING ∨
      (r ∈ (runOp rh op).1.requestQueue ∧ ¬ sendsId (runOp rh op).2 r.id)) ∧
    ((changeConnectStatus rh Status.RUNNING).1.requestQueue = [] ∧
      (changeConnectStatus rh Status.RUNNING).2 =
        rh.requestQueue.reverse.map sendEff ++
          (if rh.statusListener then [Effect.listener Status.RUNNING] else [])) := by
  refine ⟨?_, runOp_queue_preserved rh r op hr hid, ?_⟩
  · by_cases hdeg : rh.connectStatus = Status.DEGRADED
    · rw [start_degraded rh m p d hdeg]
      refine ⟨rfl, ?_⟩
      simp [sendsId, httpIds]
    · rw [start_queued rh m p d hns hdeg hnr]
      exact ⟨rfl, by simp [sendsId, httpIds]⟩
  · rw [ccs_running]
    exact ⟨rfl, by rw [processQueueEffects_eq]⟩

/-- An already-queued request used to instantiate C1. -/
def r0C1 : IRequest := ⟨0, "GET", "/connect/transfers/info", none⟩

/-- An INITIALIZING handler with one queued pending request. -/
def rhC1 : RequestHandler :=
  { initHandler "" "sdk" false false with
      requestQueue := [r0C1],
      idCallbackHash := [(0, r0C1)],
      nextId := 1 }

/-- Witness for C1_queue_until_running at a concrete handler, request and
operation. -/
theorem C1_queue_until_running_witness :
    ((start rhC1 "POST" "/connect/transfers/start" none).1.requestQueue =
        rhC1.requestQueue ++ [⟨1, "POST", "/connect/transfers/start", none⟩] ∧
      ¬ sendsId (start rhC1 "POST" "/connect/transfers/start" none).2 1) ∧
    ((runOp rhC1 (Op.stopRequests true)).1.connectStatus = Status.RUNNING ∨
      (r0C1 ∈ (runOp rhC1 (Op.stopRequests true)).1.requestQueue ∧
        ¬ sendsId (runOp rhC1 (Op.stopRequests true)).2 r0C1.id)) ∧
    ((changeConnectStatus rhC1 Status.RUNNING).1.requestQueue = [] ∧
      (changeConnectStatus rhC1 Status.RUNNING).2 =
        rhC1.requestQueue.reverse.map sendEff ++
          (if rhC1.statusListener then [Effect.listener Status.RUNNING] else [])) :=
  C1_queue_until_running rhC1 "POST" "/connect/transfers/start" none r0C1
    (Op.stopRequests true) (by decide) (by decide) (by decide) (by decide)

/-- Counterexample to C1 as stated: STOPPED is also a not-RUNNING status,
yet `start` under STOPPED appends nothing to the RequestQueue and records no
PendingRequest. -/
theorem C1_stopped_not_queued :
    (initHandler "" "sdk" false false).connectStatus = Status.INITIALIZING ∧
    { initHandler "" "sdk" false false with
        connectStatus := Status.STOPPED }.connectStatus ≠ Status.RUNNING ∧
    (start { initHandler "" "sdk" false false with connectStatus := Status.STOPPED }
        "GET" "/connect/info/ping" none).1.requestQueue = [] ∧
    (start { initHandler "" "sdk" false false with connectStatus := Status.STOPPED }
        "GET" "/connect/info/ping" none).1.idCallbackHash = [] := by
  decide

end AsperaConnect
